import Mathlib

/-! Startup of the operator manager (`cmd/manager/main.go`).

A shallow embedding of `hasRequiredVariables`, `main` and the cache builder
closure `newCacheFunc` created inside `main`.

The Go code is effectful: it reads the process environment, writes log lines,
calls into controller-runtime and ends the process.  The embedding makes these
effects explicit.

* The process environment and the answers of every collaborator
  (`zap.NewDevelopment`, `labels.Parse`, `config.GetConfig`, `manager.New`,
  `mdbv1.AddToScheme`, `SetupWithManager`, `mgr.Start`, `cache.New`) are the
  fields of a `World`.
* Every environment read, log line and collaborator call is appended to a
  trace of `Event`s, in program order.
* `main` returns the trace together with the exit status of the process.
-/

namespace Manager

/-! ## Data model -/

/-- Constant `WatchNamespaceEnv` of `main.go`. -/
def WatchNamespaceEnv : String := "WATCH_NAMESPACE"

/-- Constant `LabelSelectorEnv` of `main.go`. -/
def LabelSelectorEnv : String := "LABEL_SELECTOR"

/-- The process environment as seen through `os.LookupEnv`: `none` when the
variable is not set, `some v` when it is set to `v` (possibly empty). -/
abbrev Env := String → Option String

/-- The three names `construct.AgentImageEnv`,
`construct.VersionUpgradeHookImageEnv` and `construct.ReadinessProbeImageEnv`.
They are declared in package `controllers/construct`, so their values are
parameters of the embedding. -/
structure ImageEnvs where
  AgentImageEnv : String
  VersionUpgradeHookImageEnv : String
  ReadinessProbeImageEnv : String

/-- The list handed to `hasRequiredVariables` by `main`. -/
def ImageEnvs.names (c : ImageEnvs) : List String :=
  [c.AgentImageEnv, c.VersionUpgradeHookImageEnv, c.ReadinessProbeImageEnv]

/-- A parsed `labels.Selector`; `text` is what `%s` prints for it. -/
structure Selector where
  text : String
deriving DecidableEq, Repr

/-- A `*rest.Config` value (a handle: the code only passes it on). -/
structure RestConfig where
  id : Nat
deriving DecidableEq, Repr

/-- A `manager.Manager` value (a handle: the code only passes it on). -/
structure Mgr where
  id : Nat
deriving DecidableEq, Repr

/-- A `cache.Cache` value (a handle). -/
structure Cache where
  id : Nat
deriving DecidableEq, Repr

/-- The fields of `manager.Options` that `main` sets besides `Scheme`, which is
always the package variable `scheme`.  `NewCache` is `none` for the nil
function and `some sel` for the closure that captured the parsed selector
`sel`; what that closure does is `newCacheFunc sel`. -/
structure ManagerOptions where
  Namespace : String
  NewCache : Option Selector
deriving DecidableEq, Repr

/-- A `cache.ObjectSelector`: a label selector and a field selector, each
possibly nil. -/
structure ObjectSelector where
  Label : Option Selector
  Field : Option String
deriving DecidableEq, Repr

/-- A `cache.SelectorsByObject` map, keyed by the object type. -/
abbrev SelectorsByObject := List (String × ObjectSelector)

/-- The key `&mdbv1.MongoDBCommunity{}` of the map literal in `newCacheFunc`. -/
def MongoDBCommunity : String := "MongoDBCommunity"

/-- A `cache.Options` value.  The type is declared in controller-runtime; the
closure touches `SelectorsByObject` only, the other fields are carried along
as handles. -/
structure CacheOptions where
  Scheme : Nat
  Mapper : Nat
  Resync : Option Nat
  Namespace : String
  SelectorsByObject : SelectorsByObject
deriving DecidableEq, Repr

/-- The selector registered for an object type, if any. -/
def CacheOptions.selectorFor (o : CacheOptions) (kind : String) : Option ObjectSelector :=
  o.SelectorsByObject.lookup kind

/-- One observable step of the program, in program order. -/
inductive Event where
  /-- Call `os.LookupEnv(name)`. -/
  | lookupEnv (name : String)
  /-- Call `logger.Error(msg)`. -/
  | logError (msg : String)
  /-- Call `log.Info` / `Infof`. -/
  | logInfo (msg : String)
  /-- Call `log.Sugar().Fatal` / `Fatalf`: the line is written and the process
  exits with status 1. -/
  | logFatal (msg : String)
  /-- Call `labels.Parse(s)`. -/
  | labelsParse (s : String)
  /-- Call `config.GetConfig()`. -/
  | getConfig
  /-- Call `manager.New(cfg, opts)`. -/
  | managerNew (opts : ManagerOptions)
  /-- Call `mdbv1.AddToScheme(mgr.GetScheme())`. -/
  | addToScheme
  /-- Call `controllers.NewReconciler(mgr).SetupWithManager(mgr)`. -/
  | setupWithManager
  /-- Call `mgr.Start(signals.SetupSignalHandler())`. -/
  | mgrStart
  /-- Call `cache.New(cfg, opts)`. -/
  | cacheNew (cfg : RestConfig) (opts : CacheOptions)
deriving DecidableEq, Repr

/-- Everything outside the program that decides how a run goes. -/
structure World where
  /-- The process environment. -/
  env : Env
  /-- The error returned by `zap.NewDevelopment()`, if any. -/
  newDevelopment : Option String
  /-- The function `labels.Parse`. -/
  labelsParse : String → Except String Selector
  /-- The result of `config.GetConfig()`. -/
  getConfig : Except String RestConfig
  /-- The function `manager.New`. -/
  managerNew : RestConfig → ManagerOptions → Except String Mgr
  /-- The error returned by `mdbv1.AddToScheme(mgr.GetScheme())`, if any. -/
  addToScheme : Mgr → Option String
  /-- The error returned by `NewReconciler(mgr).SetupWithManager(mgr)`, if any. -/
  setupWithManager : Mgr → Option String
  /-- The error returned by `mgr.Start(ctx)`, if any; `none` is a clean,
  signal-triggered stop. -/
  start : Mgr → Option String
  /-- The function `cache.New`. -/
  cacheNew : RestConfig → CacheOptions → Except String Cache

/-- The result of running `main`: what it did and the exit status. -/
structure Run where
  trace : List Event
  exit : Nat
deriving DecidableEq, Repr

/-! ## The program -/

/-- The text `fmt.Sprintf("required environment variable %s not found", v)`. -/
def notFoundMsg (envVariable : String) : String :=
  "required environment variable " ++ envVariable ++ " not found"

/-- One iteration of the loop of `hasRequiredVariables`: the state is the trace
so far and `allPresent`. -/
def hasRequiredVariablesStep (env : Env) (acc : List Event × Bool) (envVariable : String) :
    List Event × Bool :=
  match env envVariable with
  | some _ => (acc.1 ++ [Event.lookupEnv envVariable], acc.2)
  | none =>
    (acc.1 ++ [Event.lookupEnv envVariable, Event.logError (notFoundMsg envVariable)], false)

/-- Function `hasRequiredVariables` of `main.go`: `allPresent` starts as `true`, the loop
visits every name, logs one error for each name that is not set and clears
`allPresent`; the final `allPresent` is returned. -/
def hasRequiredVariables (env : Env) (envVariables : List String) : List Event × Bool :=
  envVariables.foldl (hasRequiredVariablesStep env) ([], true)

/-- The `logger.Error` lines of a trace, in order. -/
def diagnostics (t : List Event) : List String :=
  t.filterMap fun e =>
    match e with
    | Event.logError msg => some msg
    | _ => none

/-- The closure `newCacheFunc` built in `main` around `parsedSelector`: it logs
the selector, overwrites `opts.SelectorsByObject` with the one-entry map
literal and returns what `cache.New(cfg, opts)` returns. -/
def newCacheFunc (w : World) (parsedSelector : Selector) (cfg : RestConfig)
    (opts : CacheOptions) : List Event × Except String Cache :=
  let opts : CacheOptions :=
    { opts with
      SelectorsByObject := [(MongoDBCommunity, { Label := some parsedSelector, Field := none })] }
  ([Event.logInfo ("Creating cache with label selector: " ++ parsedSelector.text),
    Event.cacheNew cfg opts],
   w.cacheNew cfg opts)

/-- Lines 73-98 of `main`: from the value of the namespace directive to the
watch namespace and the cache function.  `Except.error` carries the trace of a
run that ended in `Fatalf`. -/
def resolveScope (w : World) (ns : String) :
    Except (List Event) (List Event × ManagerOptions) :=
  if ns = "*" then
    match w.env LabelSelectorEnv with
    | none =>
      Except.ok ([Event.lookupEnv LabelSelectorEnv, Event.logInfo "Watching all namespaces"],
        { Namespace := "", NewCache := none })
    | some labelSelector =>
      match w.labelsParse labelSelector with
      | Except.error err =>
        Except.error
          [Event.lookupEnv LabelSelectorEnv, Event.logInfo "Watching all namespaces",
           Event.logInfo ("Watching resources with label selector: " ++ labelSelector),
           Event.labelsParse labelSelector,
           Event.logFatal ("unable to parse label selector: " ++ err)]
      | Except.ok parsedSelector =>
        Except.ok
          ([Event.lookupEnv LabelSelectorEnv, Event.logInfo "Watching all namespaces",
            Event.logInfo ("Watching resources with label selector: " ++ labelSelector),
            Event.labelsParse labelSelector],
           { Namespace := "", NewCache := some parsedSelector })
  else
    Except.ok ([Event.logInfo ("Watching namespace: " ++ ns)],
      { Namespace := ns, NewCache := none })

/-- Lines 100-134 of `main`: everything after the scope is resolved. -/
def bootstrap (w : World) (opts : ManagerOptions) : Run :=
  match w.getConfig with
  | Except.error err =>
    ⟨[Event.getConfig, Event.logFatal ("Unable to get config: " ++ err)], 1⟩
  | Except.ok cfg =>
    match w.managerNew cfg opts with
    | Except.error err =>
      ⟨[Event.getConfig, Event.managerNew opts,
        Event.logFatal ("Unable to create manager: " ++ err)], 1⟩
    | Except.ok mgr =>
      match w.addToScheme mgr with
      | some err =>
        ⟨[Event.getConfig, Event.managerNew opts, Event.logInfo "Registering Components.",
          Event.addToScheme, Event.logFatal ("Unable to add mdbv1 to scheme: " ++ err)], 1⟩
      | none =>
        match w.setupWithManager mgr with
        | some err =>
          ⟨[Event.getConfig, Event.managerNew opts, Event.logInfo "Registering Components.",
            Event.addToScheme, Event.setupWithManager,
            Event.logFatal ("Unable to create controller: " ++ err)], 1⟩
        | none =>
          match w.start mgr with
          | some err =>
            ⟨[Event.getConfig, Event.managerNew opts, Event.logInfo "Registering Components.",
              Event.addToScheme, Event.setupWithManager, Event.logInfo "Starting the Cmd.",
              Event.mgrStart, Event.logFatal ("Unable to start manager: " ++ err)], 1⟩
          | none =>
            ⟨[Event.getConfig, Event.managerNew opts, Event.logInfo "Registering Components.",
              Event.addToScheme, Event.setupWithManager, Event.logInfo "Starting the Cmd.",
              Event.mgrStart], 0⟩

/-- Function `configureLogger` of `main.go`: the error of `zap.NewDevelopment()`,
if any.  (The logger it also returns, and `zap.ReplaceGlobals`, only decide
where log lines go.) -/
def configureLogger (w : World) : Option String :=
  w.newDevelopment

/-- Function `main` of `main.go`.  A `Fatal`/`Fatalf` call and `os.Exit(1)` end
the run with status 1; falling off the end of `main` ends it with status 0.
On the error path of `configureLogger` the source calls `Fatalf` on the logger
that came back with the error, and the run is taken to end as that `Fatalf`
says.  `cache.New` is never called by `main` itself: it is called by the
closure `newCacheFunc`, which the runtime may run inside `manager.New`. -/
def main (c : ImageEnvs) (w : World) : Run :=
  match configureLogger w with
  | some err => ⟨[Event.logFatal ("Failed to configure logger: " ++ err)], 1⟩
  | none =>
    let chk := hasRequiredVariables w.env c.names
    if !chk.2 then
      ⟨chk.1, 1⟩
    else
      match w.env WatchNamespaceEnv with
      | none =>
        ⟨chk.1 ++ [Event.lookupEnv WatchNamespaceEnv,
          Event.logFatal "No namespace specified to watch"], 1⟩
      | some ns =>
        match resolveScope w ns with
        | Except.error t => ⟨chk.1 ++ Event.lookupEnv WatchNamespaceEnv :: t, 1⟩
        | Except.ok (t, opts) =>
          let r := bootstrap w opts
          ⟨chk.1 ++ Event.lookupEnv WatchNamespaceEnv :: (t ++ r.trace), r.exit⟩

/-! ## Vocabulary of the statements -/

/-- The environment `env` with every name of `removed` unset. -/
def unsetAll (env : Env) (removed : List String) : Env :=
  fun n => if n ∈ removed then none else env n

/-- The names passed to `os.LookupEnv` along a trace, in order. -/
def lookups (t : List Event) : List String :=
  t.filterMap fun e =>
    match e with
    | Event.lookupEnv name => some name
    | _ => none

/-- The world `w` with environment variable `name` set to `v`, or unset when
`v` is `none`. -/
def World.setEnv (w : World) (name : String) (v : Option String) : World :=
  { w with env := fun n => if n = name then v else w.env n }

/-- The image variable names are different from the two directive names of
`main.go`. -/
def ImageEnvs.Separate (c : ImageEnvs) : Prop :=
  WatchNamespaceEnv ∉ c.names ∧ LabelSelectorEnv ∉ c.names

instance (c : ImageEnvs) : Decidable c.Separate := by
  unfold ImageEnvs.Separate
  exact inferInstance

/-- The startup stage an event belongs to, numbered in the order of the source
text: 0 required-variable check, 1 namespace lookup, 2 selector lookup and
parse, 3 `config.GetConfig`, 4 `manager.New`, 5 `mdbv1.AddToScheme`,
6 `NewReconciler(...).SetupWithManager`, 7 `mgr.Start`.  Log lines belong to no
stage. -/
def Event.stage (e : Event) : Option Nat :=
  match e with
  | Event.lookupEnv name =>
    if name = WatchNamespaceEnv then some 1
    else if name = LabelSelectorEnv then some 2
    else some 0
  | Event.labelsParse _ => some 2
  | Event.getConfig => some 3
  | Event.managerNew _ => some 4
  | Event.addToScheme => some 5
  | Event.setupWithManager => some 6
  | Event.mgrStart => some 7
  | _ => none

/-- The stages of the events of a trace, in order. -/
def stages (t : List Event) : List Nat :=
  t.filterMap Event.stage

/-- No event of the trace belongs to a stage after stage `k`. -/
def StagesUpTo (k : Nat) (t : List Event) : Prop :=
  ∀ r ∈ stages t, r ≤ k

/-- The watch scope as section 4.2 of the specification words it: the wildcard
with no selector gives all namespaces unfiltered, the wildcard with a selector
that parses gives all namespaces filtered by it, any other value gives that
single namespace and no cache function. -/
def ScopeSpec (w : World) (ns : String) (opts : ManagerOptions) : Prop :=
  (ns = "*" ∧ w.env LabelSelectorEnv = none ∧ opts = { Namespace := "", NewCache := none })
  ∨ (ns = "*" ∧ ∃ s p, w.env LabelSelectorEnv = some s ∧ w.labelsParse s = Except.ok p
      ∧ opts = { Namespace := "", NewCache := some p })
  ∨ (ns ≠ "*" ∧ opts = { Namespace := ns, NewCache := none })

/-- The world used by the witnesses below: the three image variables are
set, the namespace directive is the wildcard, the selector directive is the
malformed `app===`, which `labelsParse` rejects. -/
def demoWorld : World where
  env := fun n =>
    if n = "AGENT_IMAGE" ∨ n = "VERSION_UPGRADE_HOOK_IMAGE" ∨ n = "READINESS_PROBE_IMAGE" then
      some "img"
    else if n = "WATCH_NAMESPACE" then some "*"
    else if n = "LABEL_SELECTOR" then some "app==="
    else none
  newDevelopment := none
  labelsParse := fun s => if s = "app===" then Except.error "bad" else Except.ok ⟨s⟩
  getConfig := Except.ok ⟨0⟩
  managerNew := fun _ _ => Except.ok ⟨0⟩
  addToScheme := fun _ => none
  setupWithManager := fun _ => none
  start := fun _ => none
  cacheNew := fun _ _ => Except.ok ⟨0⟩

/-- Base cache options that already carry a selector for another type. -/
def demoBase : CacheOptions where
  Scheme := 1
  Mapper := 2
  Resync := some 10
  Namespace := ""
  SelectorsByObject := [("Pod", { Label := some ⟨"tier=db"⟩, Field := none })]

/-- The image variable names used by the witnesses below. -/
def demoImages : ImageEnvs where
  AgentImageEnv := "AGENT_IMAGE"
  VersionUpgradeHookImageEnv := "VERSION_UPGRADE_HOOK_IMAGE"
  ReadinessProbeImageEnv := "READINESS_PROBE_IMAGE"

/-! ## `hasRequiredVariables` -/

theorem notFoundMsg_injective : Function.Injective notFoundMsg := by
  intro a b h
  have h2 := congrArg String.data h
  simp only [notFoundMsg, String.data_append, List.append_assoc] at h2
  have h3 := List.append_cancel_right (List.append_cancel_left h2)
  exact String.ext h3

theorem foldl_step_fst (env : Env) (names : List String) (acc : List Event × Bool) :
    diagnostics (names.foldl (hasRequiredVariablesStep env) acc).1
      = diagnostics acc.1 ++ (names.filter (fun n => (env n).isNone)).map notFoundMsg := by
  induction names generalizing acc with
  | nil => simp
  | cons n ns ih =>
    rw [List.foldl_cons, ih]
    cases h : env n <;>
      simp [hasRequiredVariablesStep, h, diagnostics, List.filterMap_append]

theorem foldl_step_snd (env : Env) (names : List String) (acc : List Event × Bool) :
    (names.foldl (hasRequiredVariablesStep env) acc).2
      = (acc.2 && names.all (fun n => (env n).isSome)) := by
  induction names generalizing acc with
  | nil => simp
  | cons n ns ih =>
    rw [List.foldl_cons, ih]
    cases h : env n <;> simp [hasRequiredVariablesStep, h]

theorem diagnostics_eq (env : Env) (names : List String) :
    diagnostics (hasRequiredVariables env names).1
      = (names.filter (fun n => (env n).isNone)).map notFoundMsg := by
  simpa [hasRequiredVariables, diagnostics] using foldl_step_fst env names ([], true)

theorem allPresent_eq (env : Env) (names : List String) :
    (hasRequiredVariables env names).2 = names.all (fun n => (env n).isSome) := by
  simpa [hasRequiredVariables] using foldl_step_snd env names ([], true)

theorem foldl_step_lookups (env : Env) (names : List String) (acc : List Event × Bool) :
    lookups (names.foldl (hasRequiredVariablesStep env) acc).1 = lookups acc.1 ++ names := by
  induction names generalizing acc with
  | nil => simp
  | cons n ns ih =>
    rw [List.foldl_cons, ih]
    cases h : env n <;>
      simp [hasRequiredVariablesStep, h, lookups, List.filterMap_append]

theorem mem_foldl_step (env : Env) (names : List String) (acc : List Event × Bool) (e : Event)
    (h : e ∈ (names.foldl (hasRequiredVariablesStep env) acc).1) :
    e ∈ acc.1 ∨ (∃ n ∈ names, e = Event.lookupEnv n) ∨ ∃ m, e = Event.logError m := by
  induction names generalizing acc with
  | nil => exact Or.inl h
  | cons n ns ih =>
    rw [List.foldl_cons] at h
    rcases ih _ h with h1 | ⟨m, hm, rfl⟩ | ⟨m, rfl⟩
    · cases hn : env n <;> simp [hasRequiredVariablesStep, hn] at h1
      · rcases h1 with h1 | rfl | rfl
        · exact Or.inl h1
        · exact Or.inr (Or.inl ⟨n, by simp, rfl⟩)
        · exact Or.inr (Or.inr ⟨_, rfl⟩)
      · rcases h1 with h1 | rfl
        · exact Or.inl h1
        · exact Or.inr (Or.inl ⟨n, by simp, rfl⟩)
    · exact Or.inr (Or.inl ⟨m, by simp [hm], rfl⟩)
    · exact Or.inr (Or.inr ⟨m, rfl⟩)

/-- Every event of the variable check is a lookup of a listed name or an error
line. -/
theorem mem_hasRequiredVariables (env : Env) (names : List String) (e : Event)
    (h : e ∈ (hasRequiredVariables env names).1) :
    (∃ n ∈ names, e = Event.lookupEnv n) ∨ ∃ m, e = Event.logError m := by
  rcases mem_foldl_step env names ([], true) e h with h1 | h1
  · simp at h1
  · exact h1

/-- Under `Separate`, the variable check only has events of stage 0. -/
theorem stage_of_check (c : ImageEnvs) (hc : c.Separate) (env : Env) (e : Event)
    (h : e ∈ (hasRequiredVariables env c.names).1) (r : Nat) (hr : e.stage = some r) :
    r = 0 := by
  rcases mem_hasRequiredVariables env c.names e h with ⟨n, hn, rfl⟩ | ⟨m, rfl⟩
  · have h1 : n ≠ WatchNamespaceEnv := fun h => hc.1 (h ▸ hn)
    have h2 : n ≠ LabelSelectorEnv := fun h => hc.2 (h ▸ hn)
    simp [Event.stage, h1, h2] at hr
    exact hr.symm
  · simp [Event.stage] at hr

theorem foldl_step_all_set (env : Env) (names : List String) (acc : List Event × Bool)
    (h : names.all (fun n => (env n).isSome) = true) :
    names.foldl (hasRequiredVariablesStep env) acc
      = (acc.1 ++ names.map Event.lookupEnv, acc.2) := by
  induction names generalizing acc with
  | nil => simp
  | cons n ns ih =>
    simp only [List.all_cons, Bool.and_eq_true] at h
    rw [List.foldl_cons, ih _ h.2]
    cases hn : env n with
    | none => simp [hn] at h
    | some v => simp [hasRequiredVariablesStep, hn]

/-- When the check succeeds its trace is the three lookups and nothing else. -/
theorem check_trace_of_true (env : Env) (names : List String)
    (h : (hasRequiredVariables env names).2 = true) :
    (hasRequiredVariables env names).1 = names.map Event.lookupEnv := by
  rw [allPresent_eq] at h
  simp [hasRequiredVariables, foldl_step_all_set env names ([], true) h]

/-! ## The shape of a run -/

theorem resolveScope_cases (w : World) (ns : String) :
    (ns = "*" ∧ w.env LabelSelectorEnv = none ∧
      resolveScope w ns = Except.ok
        ([Event.lookupEnv LabelSelectorEnv, Event.logInfo "Watching all namespaces"],
         { Namespace := "", NewCache := none }))
    ∨ (ns = "*" ∧ ∃ s err, w.env LabelSelectorEnv = some s ∧ w.labelsParse s = Except.error err ∧
      resolveScope w ns = Except.error
        [Event.lookupEnv LabelSelectorEnv, Event.logInfo "Watching all namespaces",
         Event.logInfo ("Watching resources with label selector: " ++ s),
         Event.labelsParse s, Event.logFatal ("unable to parse label selector: " ++ err)])
    ∨ (ns = "*" ∧ ∃ s p, w.env LabelSelectorEnv = some s ∧ w.labelsParse s = Except.ok p ∧
      resolveScope w ns = Except.ok
        ([Event.lookupEnv LabelSelectorEnv, Event.logInfo "Watching all namespaces",
          Event.logInfo ("Watching resources with label selector: " ++ s),
          Event.labelsParse s],
         { Namespace := "", NewCache := some p }))
    ∨ (ns ≠ "*" ∧
      resolveScope w ns = Except.ok
        ([Event.logInfo ("Watching namespace: " ++ ns)], { Namespace := ns, NewCache := none })) := by
  by_cases hns : ns = "*"
  · cases hl : w.env LabelSelectorEnv with
    | none => left; simp [resolveScope, hns, hl]
    | some s =>
      cases hp : w.labelsParse s with
      | error err => right; left; exact ⟨hns, s, err, rfl, hp, by simp [resolveScope, hns, hl, hp]⟩
      | ok p => right; right; left; exact ⟨hns, s, p, rfl, hp, by simp [resolveScope, hns, hl, hp]⟩
  · right; right; right; exact ⟨hns, by simp [resolveScope, hns]⟩

theorem bootstrap_cases (w : World) (opts : ManagerOptions) :
    (∃ err, w.getConfig = Except.error err ∧
      bootstrap w opts = ⟨[Event.getConfig, Event.logFatal ("Unable to get config: " ++ err)], 1⟩)
    ∨ (∃ cfg err, w.getConfig = Except.ok cfg ∧ w.managerNew cfg opts = Except.error err ∧
      bootstrap w opts = ⟨[Event.getConfig, Event.managerNew opts,
        Event.logFatal ("Unable to create manager: " ++ err)], 1⟩)
    ∨ (∃ cfg mgr err, w.getConfig = Except.ok cfg ∧ w.managerNew cfg opts = Except.ok mgr ∧
      w.addToScheme mgr = some err ∧
      bootstrap w opts = ⟨[Event.getConfig, Event.managerNew opts,
        Event.logInfo "Registering Components.", Event.addToScheme,
        Event.logFatal ("Unable to add mdbv1 to scheme: " ++ err)], 1⟩)
    ∨ (∃ cfg mgr err, w.getConfig = Except.ok cfg ∧ w.managerNew cfg opts = Except.ok mgr ∧
      w.addToScheme mgr = none ∧ w.setupWithManager mgr = some err ∧
      bootstrap w opts = ⟨[Event.getConfig, Event.managerNew opts,
        Event.logInfo "Registering Components.", Event.addToScheme, Event.setupWithManager,
        Event.logFatal ("Unable to create controller: " ++ err)], 1⟩)
    ∨ (∃ cfg mgr err, w.getConfig = Except.ok cfg ∧ w.managerNew cfg opts = Except.ok mgr ∧
      w.addToScheme mgr = none ∧ w.setupWithManager mgr = none ∧ w.start mgr = some err ∧
      bootstrap w opts = ⟨[Event.getConfig, Event.managerNew opts,
        Event.logInfo "Registering Components.", Event.addToScheme, Event.setupWithManager,
        Event.logInfo "Starting the Cmd.", Event.mgrStart,
        Event.logFatal ("Unable to start manager: " ++ err)], 1⟩)
    ∨ (∃ cfg mgr, w.getConfig = Except.ok cfg ∧ w.managerNew cfg opts = Except.ok mgr ∧
      w.addToScheme mgr = none ∧ w.setupWithManager mgr = none ∧ w.start mgr = none ∧
      bootstrap w opts = ⟨[Event.getConfig, Event.managerNew opts,
        Event.logInfo "Registering Components.", Event.addToScheme, Event.setupWithManager,
        Event.logInfo "Starting the Cmd.", Event.mgrStart], 0⟩) := by
  cases h1 : w.getConfig with
  | error err => left; exact ⟨err, rfl, by simp [bootstrap, h1]⟩
  | ok cfg =>
    cases h2 : w.managerNew cfg opts with
    | error err => right; left; exact ⟨cfg, err, rfl, h2, by simp [bootstrap, h1, h2]⟩
    | ok mgr =>
      cases h3 : w.addToScheme mgr with
      | some err =>
        right; right; left; exact ⟨cfg, mgr, err, rfl, h2, h3, by simp [bootstrap, h1, h2, h3]⟩
      | none =>
        cases h4 : w.setupWithManager mgr with
        | some err =>
          right; right; right; left
          exact ⟨cfg, mgr, err, rfl, h2, h3, h4, by simp [bootstrap, h1, h2, h3, h4]⟩
        | none =>
          cases h5 : w.start mgr with
          | some err =>
            right; right; right; right; left
            exact ⟨cfg, mgr, err, rfl, h2, h3, h4, h5, by simp [bootstrap, h1, h2, h3, h4, h5]⟩
          | none =>
            right; right; right; right; right
            exact ⟨cfg, mgr, rfl, h2, h3, h4, h5, by simp [bootstrap, h1, h2, h3, h4, h5]⟩

theorem main_cases (c : ImageEnvs) (w : World) :
    (∃ err, w.newDevelopment = some err ∧
      main c w = ⟨[Event.logFatal ("Failed to configure logger: " ++ err)], 1⟩)
    ∨ (w.newDevelopment = none ∧ (hasRequiredVariables w.env c.names).2 = false ∧
      main c w = ⟨(hasRequiredVariables w.env c.names).1, 1⟩)
    ∨ (w.newDevelopment = none ∧ (hasRequiredVariables w.env c.names).2 = true ∧
      w.env WatchNamespaceEnv = none ∧
      main c w = ⟨c.names.map Event.lookupEnv ++ [Event.lookupEnv WatchNamespaceEnv,
        Event.logFatal "No namespace specified to watch"], 1⟩)
    ∨ (∃ ns t, w.newDevelopment = none ∧ (hasRequiredVariables w.env c.names).2 = true ∧
      w.env WatchNamespaceEnv = some ns ∧ resolveScope w ns = Except.error t ∧
      main c w = ⟨c.names.map Event.lookupEnv ++ Event.lookupEnv WatchNamespaceEnv :: t, 1⟩)
    ∨ (∃ ns t opts, w.newDevelopment = none ∧ (hasRequiredVariables w.env c.names).2 = true ∧
      w.env WatchNamespaceEnv = some ns ∧ resolveScope w ns = Except.ok (t, opts) ∧
      main c w = ⟨c.names.map Event.lookupEnv ++ Event.lookupEnv WatchNamespaceEnv ::
        (t ++ (bootstrap w opts).trace), (bootstrap w opts).exit⟩) := by
  cases h0 : w.newDevelopment with
  | some err => left; exact ⟨err, rfl, by simp [main, configureLogger, h0]⟩
  | none =>
    right
    cases h1 : (hasRequiredVariables w.env c.names).2 with
    | false => left; exact ⟨rfl, rfl, by simp [main, configureLogger, h0, h1]⟩
    | true =>
      right
      have ht := check_trace_of_true _ _ h1
      cases h2 : w.env WatchNamespaceEnv with
      | none => left; exact ⟨rfl, rfl, rfl, by simp [main, configureLogger, h0, h1, h2, ht]⟩
      | some ns =>
        right
        cases h3 : resolveScope w ns with
        | error t =>
          left
          exact ⟨ns, t, rfl, rfl, rfl, h3, by simp [main, configureLogger, h0, h1, h2, h3, ht]⟩
        | ok p =>
          right
          obtain ⟨t, opts⟩ := p
          exact ⟨ns, t, opts, rfl, rfl, rfl, h3,
            by simp [main, configureLogger, h0, h1, h2, h3, ht]⟩

theorem check_congr (env₁ env₂ : Env) (names : List String)
    (h : ∀ n ∈ names, env₁ n = env₂ n) :
    hasRequiredVariables env₁ names = hasRequiredVariables env₂ names := by
  unfold hasRequiredVariables
  apply List.foldl_ext
  intro acc n hn
  simp [hasRequiredVariablesStep, h n hn]

theorem check_setEnv (c : ImageEnvs) (w : World) (name : String) (v : Option String)
    (h : name ∉ c.names) :
    hasRequiredVariables (w.setEnv name v).env c.names = hasRequiredVariables w.env c.names := by
  apply check_congr
  intro n hn
  have : n ≠ name := fun e => h (e ▸ hn)
  simp [World.setEnv, this]

theorem bootstrap_setEnv (w : World) (name : String) (v : Option String)
    (opts : ManagerOptions) : bootstrap (w.setEnv name v) opts = bootstrap w opts := rfl

/-- The events that the second half of `main` can produce. -/
theorem mem_bootstrap (w : World) (opts : ManagerOptions) (e : Event)
    (h : e ∈ (bootstrap w opts).trace) :
    e = Event.getConfig ∨ e = Event.managerNew opts ∨ e = Event.addToScheme
      ∨ e = Event.setupWithManager ∨ e = Event.mgrStart
      ∨ (∃ m, e = Event.logInfo m) ∨ ∃ m, e = Event.logFatal m := by
  rcases bootstrap_cases w opts with ⟨_, _, hb⟩ | ⟨_, _, _, _, hb⟩ | ⟨_, _, _, _, _, _, hb⟩ |
    ⟨_, _, _, _, _, _, _, hb⟩ | ⟨_, _, _, _, _, _, _, _, hb⟩ | ⟨_, _, _, _, _, _, _, hb⟩ <;>
  · rw [hb] at h
    simp only [List.mem_cons, List.mem_singleton, List.not_mem_nil, or_false] at h
    rcases h with rfl | rfl | rfl | rfl | rfl | rfl | rfl | rfl <;> simp

/-- The second half of `main` calls `manager.New` exactly when `config.GetConfig`
succeeded. -/
theorem managerNew_mem_bootstrap (w : World) (opts o : ManagerOptions) :
    Event.managerNew o ∈ (bootstrap w opts).trace ↔ o = opts ∧ ∃ cfg, w.getConfig = Except.ok cfg := by
  rcases bootstrap_cases w opts with ⟨_, h1, hb⟩ | ⟨_, _, h1, _, hb⟩ | ⟨_, _, _, h1, _, _, hb⟩ |
    ⟨_, _, _, h1, _, _, _, hb⟩ | ⟨_, _, _, h1, _, _, _, _, hb⟩ | ⟨_, _, h1, _, _, _, _, hb⟩ <;>
  simp [hb, h1]

/-- The events of the scope resolution. -/
theorem mem_resolveScope (w : World) (ns : String) (e : Event) :
    (∀ t, resolveScope w ns = Except.error t → e ∈ t →
      e = Event.lookupEnv LabelSelectorEnv ∨ (∃ s, e = Event.labelsParse s)
        ∨ (∃ m, e = Event.logInfo m) ∨ ∃ m, e = Event.logFatal m)
    ∧ (∀ t opts, resolveScope w ns = Except.ok (t, opts) → e ∈ t →
      (ns = "*" ∧ (e = Event.lookupEnv LabelSelectorEnv ∨ ∃ s, e = Event.labelsParse s))
        ∨ ∃ m, e = Event.logInfo m) := by
  rcases resolveScope_cases w ns with ⟨h1, _, hr⟩ | ⟨h1, _, _, _, _, hr⟩ | ⟨h1, _, _, _, _, hr⟩ |
    ⟨h1, hr⟩
  · rw [hr]
    refine ⟨?_, ?_⟩
    · intro t ht
      cases ht
    intro t opts ht he
    cases ht
    simp only [List.mem_cons, List.mem_singleton, List.not_mem_nil, or_false] at he
    rcases he with rfl | rfl <;> simp [h1]
  · rw [hr]
    refine ⟨?_, ?_⟩
    · intro t ht he
      cases ht
      simp only [List.mem_cons, List.mem_singleton, List.not_mem_nil, or_false] at he
      rcases he with rfl | rfl | rfl | rfl | rfl <;> simp
    · intro t opts ht
      cases ht
  · rw [hr]
    refine ⟨?_, ?_⟩
    · intro t ht
      cases ht
    intro t opts ht he
    cases ht
    simp only [List.mem_cons, List.mem_singleton, List.not_mem_nil, or_false] at he
    rcases he with rfl | rfl | rfl | rfl <;> simp [h1]
  · rw [hr]
    refine ⟨?_, ?_⟩
    · intro t ht
      cases ht
    intro t opts ht he
    cases ht
    simp only [List.mem_cons, List.mem_singleton, List.not_mem_nil, or_false] at he
    rcases he with rfl
    simp

/-- When `main` calls `manager.New`, and with which options. -/
theorem managerNew_mem_main (c : ImageEnvs) (w : World) (o : ManagerOptions) :
    Event.managerNew o ∈ (main c w).trace ↔
      w.newDevelopment = none ∧ (hasRequiredVariables w.env c.names).2 = true ∧
      ∃ ns t cfg, w.env WatchNamespaceEnv = some ns ∧ resolveScope w ns = Except.ok (t, o)
        ∧ w.getConfig = Except.ok cfg := by
  rcases main_cases c w with ⟨e, h0, hm⟩ | ⟨h0, h1, hm⟩ | ⟨h0, h1, h2, hm⟩ |
    ⟨ns, t, h0, h1, h2, h3, hm⟩ | ⟨ns, t, opts, h0, h1, h2, h3, hm⟩
  · simp [hm, h0]
  · rw [hm]
    simp only [h1, h0, Bool.false_eq_true, false_and, and_false, iff_false]
    intro h
    rcases mem_hasRequiredVariables _ _ _ h with ⟨n, _, h⟩ | ⟨m, h⟩ <;> cases h
  · simp [hm, h0, h1, h2]
  · rw [hm]
    constructor
    · intro h
      simp only [List.mem_append, List.mem_map, List.mem_cons, reduceCtorEq, and_false,
        exists_false, false_or] at h
      rcases (mem_resolveScope w ns _).1 t h3 h with h | ⟨_, h⟩ | ⟨_, h⟩ | ⟨_, h⟩ <;> cases h
    · rintro ⟨_, _, ns2, t2, cfg, h4, h5, _⟩
      rw [h2] at h4
      cases h4
      rw [h3] at h5
      cases h5
  · rw [hm]
    constructor
    · intro h
      simp only [List.mem_append, List.mem_map, List.mem_cons, reduceCtorEq, and_false,
        exists_false, false_or] at h
      rcases h with h | h
      · rcases (mem_resolveScope w ns _).2 t opts h3 h with ⟨_, h | ⟨_, h⟩⟩ | ⟨_, h⟩ <;> cases h
      · rw [managerNew_mem_bootstrap] at h
        obtain ⟨rfl, cfg, hc⟩ := h
        exact ⟨h0, h1, ns, t, cfg, h2, h3, hc⟩
    · rintro ⟨_, _, ns2, t2, cfg, h4, h5, h6⟩
      rw [h2] at h4
      cases h4
      rw [h3] at h5
      cases h5
      simp only [List.mem_append, List.mem_map, List.mem_cons, reduceCtorEq, and_false,
        exists_false, false_or]
      right
      rw [managerNew_mem_bootstrap]
      exact ⟨rfl, cfg, h6⟩

theorem main_logger_failed (c : ImageEnvs) (w : World) (err : String)
    (h0 : w.newDevelopment = some err) :
    main c w = ⟨[Event.logFatal ("Failed to configure logger: " ++ err)], 1⟩ := by
  simp [main, configureLogger, h0]

theorem main_variable_missing (c : ImageEnvs) (w : World) (h0 : w.newDevelopment = none)
    (h1 : (hasRequiredVariables w.env c.names).2 = false) :
    main c w = ⟨(hasRequiredVariables w.env c.names).1, 1⟩ := by
  simp [main, configureLogger, h0, h1]

theorem main_scope_resolved (c : ImageEnvs) (w : World) (ns : String) (t : List Event)
    (opts : ManagerOptions) (h0 : w.newDevelopment = none)
    (h1 : (hasRequiredVariables w.env c.names).2 = true)
    (h2 : w.env WatchNamespaceEnv = some ns) (h3 : resolveScope w ns = Except.ok (t, opts)) :
    main c w = ⟨c.names.map Event.lookupEnv ++ Event.lookupEnv WatchNamespaceEnv ::
        (t ++ (bootstrap w opts).trace), (bootstrap w opts).exit⟩ := by
  simp [main, configureLogger, h0, h1, h2, h3, check_trace_of_true _ _ h1]

theorem mem_lookups (t : List Event) (n : String) : n ∈ lookups t ↔ Event.lookupEnv n ∈ t := by
  unfold lookups
  rw [List.mem_filterMap]
  constructor
  · rintro ⟨e, he, h⟩
    cases e <;> simp at h
    subst h
    exact he
  · intro h
    exact ⟨_, h, rfl⟩

/-- Every event of a run of `main`, by kind. -/
theorem mem_main (c : ImageEnvs) (w : World) (e : Event) (h : e ∈ (main c w).trace) :
    (∃ m, e = Event.logError m ∨ e = Event.logInfo m ∨ e = Event.logFatal m)
    ∨ (∃ n ∈ c.names, e = Event.lookupEnv n)
    ∨ e = Event.lookupEnv WatchNamespaceEnv
    ∨ (w.env WatchNamespaceEnv = some "*" ∧
        (e = Event.lookupEnv LabelSelectorEnv ∨ ∃ s, e = Event.labelsParse s))
    ∨ e = Event.getConfig ∨ (∃ o, e = Event.managerNew o) ∨ e = Event.addToScheme
    ∨ e = Event.setupWithManager ∨ e = Event.mgrStart := by
  rcases main_cases c w with ⟨err, h0, hm⟩ | ⟨h0, h1, hm⟩ | ⟨h0, h1, h2, hm⟩ |
    ⟨ns, t, h0, h1, h2, h3, hm⟩ | ⟨ns, t, opts, h0, h1, h2, h3, hm⟩
  · rw [hm] at h
    simp only [List.mem_singleton] at h
    subst h
    simp
  · rw [hm] at h
    rcases mem_hasRequiredVariables _ _ _ h with ⟨n, hn, rfl⟩ | ⟨m, rfl⟩
    · exact Or.inr (Or.inl ⟨n, hn, rfl⟩)
    · simp
  · rw [hm] at h
    simp only [List.mem_append, List.mem_map, List.mem_cons, List.mem_singleton,
      List.not_mem_nil, or_false] at h
    rcases h with ⟨n, hn, rfl⟩ | rfl | rfl
    · exact Or.inr (Or.inl ⟨n, hn, rfl⟩)
    · simp
    · simp
  · rw [hm] at h
    simp only [List.mem_append, List.mem_map, List.mem_cons] at h
    rcases h with ⟨n, hn, rfl⟩ | rfl | h
    · exact Or.inr (Or.inl ⟨n, hn, rfl⟩)
    · simp
    · have hstar : ns = "*" := by
        rcases resolveScope_cases w ns with ⟨_, _, hr⟩ | ⟨h, _⟩ | ⟨_, _, _, _, _, hr⟩ | ⟨_, hr⟩
        · rw [hr] at h3; cases h3
        · exact h
        · rw [hr] at h3; cases h3
        · rw [hr] at h3; cases h3
      subst hstar
      rcases (mem_resolveScope w _ e).1 t h3 h with rfl | ⟨s, rfl⟩ | ⟨m, rfl⟩ | ⟨m, rfl⟩ <;>
        simp [h2]
  · rw [hm] at h
    simp only [List.mem_append, List.mem_map, List.mem_cons] at h
    rcases h with ⟨n, hn, rfl⟩ | rfl | h | h
    · exact Or.inr (Or.inl ⟨n, hn, rfl⟩)
    · simp
    · rcases (mem_resolveScope w ns e).2 t opts h3 h with ⟨rfl, rfl | ⟨s, rfl⟩⟩ | ⟨m, rfl⟩ <;>
        simp [h2]
    · rcases mem_bootstrap w opts e h with rfl | rfl | rfl | rfl | rfl | ⟨m, rfl⟩ | ⟨m, rfl⟩ <;>
        simp

/-- Outside the wildcard mode the selector directive does not reach `main`. -/
theorem main_setEnv_selector (c : ImageEnvs) (w : World) (v : Option String)
    (hc : LabelSelectorEnv ∉ c.names) (hns : w.env WatchNamespaceEnv ≠ some "*") :
    main c (w.setEnv LabelSelectorEnv v) = main c w := by
  have hchk := check_setEnv c w LabelSelectorEnv v hc
  have hnd : (w.setEnv LabelSelectorEnv v).newDevelopment = w.newDevelopment := rfl
  have henv : (w.setEnv LabelSelectorEnv v).env WatchNamespaceEnv = w.env WatchNamespaceEnv := by
    simp [World.setEnv, WatchNamespaceEnv, LabelSelectorEnv]
  simp only [main, configureLogger, hchk, hnd, henv, bootstrap_setEnv]
  cases h2 : w.env WatchNamespaceEnv with
  | none => rfl
  | some ns =>
    have hne : ns ≠ "*" := fun h => hns (by rw [h2, h])
    simp [resolveScope, hne]

theorem spec_of_resolveScope (w : World) (ns : String) (t : List Event) (opts : ManagerOptions)
    (h : resolveScope w ns = Except.ok (t, opts)) : ScopeSpec w ns opts := by
  rcases resolveScope_cases w ns with ⟨hs, hl, hr⟩ | ⟨hs, s, err, hl, hp, hr⟩ |
    ⟨hs, s, p, hl, hp, hr⟩ | ⟨hs, hr⟩
  · rw [hr] at h; cases h; exact Or.inl ⟨hs, hl, rfl⟩
  · rw [hr] at h; cases h
  · rw [hr] at h; cases h; exact Or.inr (Or.inl ⟨hs, s, p, hl, hp, rfl⟩)
  · rw [hr] at h; cases h; exact Or.inr (Or.inr ⟨hs, rfl⟩)

theorem resolveScope_of_spec (w : World) (ns : String) (opts : ManagerOptions)
    (h : ScopeSpec w ns opts) : ∃ t, resolveScope w ns = Except.ok (t, opts) := by
  rcases h with ⟨hs, hl, rfl⟩ | ⟨hs, s, p, hl, hp, rfl⟩ | ⟨hs, rfl⟩
  · exact ⟨[Event.lookupEnv LabelSelectorEnv, Event.logInfo "Watching all namespaces"],
      by simp [resolveScope, hs, hl]⟩
  · exact ⟨[Event.lookupEnv LabelSelectorEnv, Event.logInfo "Watching all namespaces",
      Event.logInfo ("Watching resources with label selector: " ++ s), Event.labelsParse s],
      by simp [resolveScope, hs, hl, hp]⟩
  · exact ⟨[Event.logInfo ("Watching namespace: " ++ ns)], by simp [resolveScope, hs]⟩

theorem bootstrap_exit (w : World) (opts : ManagerOptions) :
    ((bootstrap w opts).exit = 0 ↔
      ∃ cfg mgr, w.getConfig = Except.ok cfg ∧ w.managerNew cfg opts = Except.ok mgr ∧
        w.addToScheme mgr = none ∧ w.setupWithManager mgr = none ∧ w.start mgr = none)
    ∧ ((bootstrap w opts).exit = 0 ∨ (bootstrap w opts).exit = 1) := by
  rcases bootstrap_cases w opts with ⟨_, h1, hb⟩ | ⟨_, _, h1, h2, hb⟩ | ⟨_, _, _, h1, h2, h3, hb⟩ |
    ⟨_, _, _, h1, h2, h3, h4, hb⟩ | ⟨_, _, _, h1, h2, h3, h4, h5, hb⟩ |
    ⟨_, _, h1, h2, h3, h4, h5, hb⟩ <;>
  simp [hb, *]

theorem scopeSpec_unique (w : World) (ns : String) (o₁ o₂ : ManagerOptions)
    (h₁ : ScopeSpec w ns o₁) (h₂ : ScopeSpec w ns o₂) : o₁ = o₂ := by
  obtain ⟨t₁, e₁⟩ := resolveScope_of_spec w ns o₁ h₁
  obtain ⟨t₂, e₂⟩ := resolveScope_of_spec w ns o₂ h₂
  rw [e₁] at e₂
  cases e₂
  rfl

/-- The stages of the second half of `main`. -/
theorem bootstrap_stages (w : World) (opts : ManagerOptions) :
    (stages (bootstrap w opts).trace).Pairwise (fun a b => a < b)
    ∧ (∀ b ∈ stages (bootstrap w opts).trace, 3 ≤ b)
    ∧ (∀ b ∈ stages (bootstrap w opts).trace, ∀ k, 3 ≤ k → k < b →
        k ∈ stages (bootstrap w opts).trace)
    ∧ (bootstrap w opts).trace.count Event.mgrStart ≤ 1
    ∧ (∀ err, w.getConfig = Except.error err → StagesUpTo 3 (bootstrap w opts).trace)
    ∧ (∀ cfg err, w.getConfig = Except.ok cfg → w.managerNew cfg opts = Except.error err →
        StagesUpTo 4 (bootstrap w opts).trace)
    ∧ (∀ cfg mgr err, w.getConfig = Except.ok cfg → w.managerNew cfg opts = Except.ok mgr →
        w.addToScheme mgr = some err → StagesUpTo 5 (bootstrap w opts).trace)
    ∧ (∀ cfg mgr err, w.getConfig = Except.ok cfg → w.managerNew cfg opts = Except.ok mgr →
        w.setupWithManager mgr = some err → StagesUpTo 6 (bootstrap w opts).trace)
    ∧ (Event.mgrStart ∈ (bootstrap w opts).trace →
        ∃ cfg mgr, w.getConfig = Except.ok cfg ∧ w.managerNew cfg opts = Except.ok mgr ∧
          w.addToScheme mgr = none ∧ w.setupWithManager mgr = none) := by
  rcases bootstrap_cases w opts with ⟨_, h1, hb⟩ | ⟨_, _, h1, h2, hb⟩ | ⟨_, _, _, h1, h2, h3, hb⟩ |
    ⟨_, _, _, h1, h2, h3, h4, hb⟩ | ⟨_, _, _, h1, h2, h3, h4, h5, hb⟩ |
    ⟨_, _, h1, h2, h3, h4, h5, hb⟩ <;>
  · rw [hb]
    simp only [StagesUpTo]
    refine ⟨?_, ?_, ?_, ?_, ?_, ?_, ?_, ?_, ?_⟩ <;>
      simp [stages, Event.stage, *] <;>
      (repeat' (first | omega | intro _ | apply And.intro)) <;>
      (try subst_vars) <;> (try simp_all)

theorem stages_append (a b : List Event) : stages (a ++ b) = stages a ++ stages b := by
  simp [stages, List.filterMap_append]

theorem stages_names (c : ImageEnvs) (hc : c.Separate) :
    stages (c.names.map Event.lookupEnv) = [0, 0, 0] := by
  obtain ⟨h1, h2⟩ := hc
  simp only [ImageEnvs.names, List.mem_cons, List.mem_singleton, List.not_mem_nil, or_false,
    not_or] at h1 h2
  obtain ⟨a1, a2, a3⟩ := h1
  obtain ⟨b1, b2, b3⟩ := h2
  simp [stages, ImageEnvs.names, Event.stage, Ne.symm a1, Ne.symm a2, Ne.symm a3, Ne.symm b1,
    Ne.symm b2, Ne.symm b3]

theorem stages_watch (t : List Event) :
    stages (Event.lookupEnv WatchNamespaceEnv :: t) = 1 :: stages t := by
  simp [stages, Event.stage]

/-- What a resolved scope looks like, stage by stage. -/
theorem resolve_ok_stages (w : World) (ns : String) (t : List Event) (opts : ManagerOptions)
    (h : resolveScope w ns = Except.ok (t, opts)) :
    (stages t = [] ∨ stages t = [2] ∨ stages t = [2, 2])
    ∧ Event.mgrStart ∉ t
    ∧ (∀ s err, ns = "*" → w.env LabelSelectorEnv = some s →
        w.labelsParse s = Except.error err → False) := by
  rcases resolveScope_cases w ns with ⟨hs, hl, hr⟩ | ⟨hs, s, err, hl, hp, hr⟩ |
    ⟨hs, s, p, hl, hp, hr⟩ | ⟨hs, hr⟩
  · rw [hr] at h
    cases h
    refine ⟨by simp [stages, Event.stage, LabelSelectorEnv, WatchNamespaceEnv], by simp, ?_⟩
    intro s2 err _ h2
    rw [hl] at h2
    cases h2
  · rw [hr] at h
    cases h
  · rw [hr] at h
    cases h
    refine ⟨by simp [stages, Event.stage, LabelSelectorEnv, WatchNamespaceEnv], by simp, ?_⟩
    intro s2 err _ h2 h3
    rw [hl] at h2
    cases h2
    rw [hp] at h3
    cases h3
  · rw [hr] at h
    cases h
    simp [stages, Event.stage, hs]

/-- What a failed scope resolution looks like, stage by stage. -/
theorem resolve_error_stages (w : World) (ns : String) (t : List Event)
    (h : resolveScope w ns = Except.error t) :
    stages t = [2, 2] ∧ Event.mgrStart ∉ t := by
  rcases resolveScope_cases w ns with ⟨hs, hl, hr⟩ | ⟨hs, s, err, hl, hp, hr⟩ |
    ⟨hs, s, p, hl, hp, hr⟩ | ⟨hs, hr⟩
  · rw [hr] at h; cases h
  · rw [hr] at h
    cases h
    simp [stages, Event.stage, LabelSelectorEnv, WatchNamespaceEnv]
  · rw [hr] at h; cases h
  · rw [hr] at h; cases h

theorem stagesUpTo_mono (k₁ k₂ : Nat) (h : k₁ ≤ k₂) (t : List Event) (ht : StagesUpTo k₁ t) :
    StagesUpTo k₂ t :=
  fun r hr => Nat.le_trans (ht r hr) h

/-- A run that stopped before `config.GetConfig` satisfies every statement about
the later stages. -/
theorem early_stop (c : ImageEnvs) (w : World) (t : List Event) (hup : StagesUpTo 2 t)
    (hms : Event.mgrStart ∉ t) :
    (∀ s err, w.env WatchNamespaceEnv = some "*" → w.env LabelSelectorEnv = some s →
        w.labelsParse s = Except.error err → StagesUpTo 2 t)
    ∧ (∀ err, w.getConfig = Except.error err → StagesUpTo 3 t)
    ∧ (∀ ns opts cfg err, w.env WatchNamespaceEnv = some ns → ScopeSpec w ns opts →
        w.getConfig = Except.ok cfg → w.managerNew cfg opts = Except.error err →
        StagesUpTo 4 t)
    ∧ (∀ ns opts cfg mgr err, w.env WatchNamespaceEnv = some ns → ScopeSpec w ns opts →
        w.getConfig = Except.ok cfg → w.managerNew cfg opts = Except.ok mgr →
        w.addToScheme mgr = some err → StagesUpTo 5 t)
    ∧ (∀ ns opts cfg mgr err, w.env WatchNamespaceEnv = some ns → ScopeSpec w ns opts →
        w.getConfig = Except.ok cfg → w.managerNew cfg opts = Except.ok mgr →
        w.setupWithManager mgr = some err → StagesUpTo 6 t)
    ∧ (Event.mgrStart ∈ t →
        w.newDevelopment = none ∧ (∀ n ∈ c.names, ∃ v, w.env n = some v) ∧
        ∃ ns opts cfg mgr, w.env WatchNamespaceEnv = some ns ∧ ScopeSpec w ns opts ∧
          w.getConfig = Except.ok cfg ∧ w.managerNew cfg opts = Except.ok mgr ∧
          w.addToScheme mgr = none ∧ w.setupWithManager mgr = none) :=
  ⟨fun _ _ _ _ _ => hup,
   fun _ _ => stagesUpTo_mono 2 3 (by omega) t hup,
   fun _ _ _ _ _ _ _ _ => stagesUpTo_mono 2 4 (by omega) t hup,
   fun _ _ _ _ _ _ _ _ _ _ => stagesUpTo_mono 2 5 (by omega) t hup,
   fun _ _ _ _ _ _ _ _ _ _ => stagesUpTo_mono 2 6 (by omega) t hup,
   fun h => absurd h hms⟩

/-- C1: `hasRequiredVariables` looks up every listed name (it does not stop at
the first missing one) and its diagnostics are exactly the `not found` lines of
the listed names that are not set, in list order: a name that is set gets no
line, a name that is not set gets one line for each time it is listed.  In
particular, when any names are removed from an environment in which all listed
names were set, the diagnostics name exactly the removed listed names. -/
theorem hasRequiredVariables_reports_every_missing (env : Env) (names : List String) :
    lookups (hasRequiredVariables env names).1 = names
    ∧ diagnostics (hasRequiredVariables env names).1
        = (names.filter (fun n => (env n).isNone)).map notFoundMsg
    ∧ (∀ n, (diagnostics (hasRequiredVariables env names).1).count (notFoundMsg n)
        = if env n = none then names.count n else 0)
    ∧ (∀ removed : List String, (∀ n ∈ names, (env n).isSome = true) →
        diagnostics (hasRequiredVariables (unsetAll env removed) names).1
          = (names.filter (fun n => decide (n ∈ removed))).map notFoundMsg) := by
  refine ⟨?_, diagnostics_eq env names, ?_, ?_⟩
  · simpa [hasRequiredVariables, lookups] using foldl_step_lookups env names ([], true)
  · intro n
    rw [diagnostics_eq, List.count_map_of_injective _ _ notFoundMsg_injective]
    cases h : env n with
    | none => simp [List.count_filter, h]
    | some v =>
      simp only [reduceCtorEq, if_false]
      apply List.count_eq_zero_of_not_mem
      simp [List.mem_filter, h]
  · intro removed hset
    rw [diagnostics_eq]
    congr 1
    apply List.filter_congr
    intro n hn
    have := hset n hn
    by_cases hr : n ∈ removed <;> simp [unsetAll, hr]
    simpa [Option.isSome_iff_ne_none] using this

theorem hasRequiredVariables_reports_every_missing_witness :
    (∀ n ∈ ["A", "B", "C"],
        ((fun n => if n = "Z" then none else some "") : Env) n |>.isSome = true)
    ∧ diagnostics (hasRequiredVariables
          (unsetAll (fun n => if n = "Z" then none else some "") ["C", "A"]) ["A", "B", "C"]).1
        = [notFoundMsg "A", notFoundMsg "C"] :=
  ⟨by decide,
   by
    have h := (hasRequiredVariables_reports_every_missing
      (fun n => if n = "Z" then none else some "") ["A", "B", "C"]).2.2.2 ["C", "A"] (by decide)
    rw [h]
    decide⟩

/-- C2: `hasRequiredVariables` returns `true` exactly when every listed name is
set in the environment, whatever its value; for the empty list it returns
`true`. -/
theorem hasRequiredVariables_true_iff_all_set (env : Env) (names : List String) :
    ((hasRequiredVariables env names).2 = true ↔ ∀ n ∈ names, ∃ v, env n = some v)
    ∧ (hasRequiredVariables env []).2 = true := by
  constructor
  · rw [allPresent_eq]
    simp [List.all_eq_true, Option.isSome_iff_exists]
  · rfl

/-- C4: with the namespace directive `*` and a selector directive that
`labels.Parse` rejects, `main` ends with status 1 and its trace has no
`config.GetConfig`, `manager.New`, `cache.New` or `mgr.Start` call; when the
logger was configured and the image variables are set, the run ends right at
the `unable to parse label selector` line, after the call of `labels.Parse`. -/
theorem malformed_selector_is_fatal (c : ImageEnvs) (w : World) (s err : String)
    (hns : w.env WatchNamespaceEnv = some "*")
    (hsel : w.env LabelSelectorEnv = some s)
    (hp : w.labelsParse s = Except.error err) :
    (main c w).exit = 1
    ∧ Event.getConfig ∉ (main c w).trace
    ∧ (∀ opts, Event.managerNew opts ∉ (main c w).trace)
    ∧ (∀ cfg opts, Event.cacheNew cfg opts ∉ (main c w).trace)
    ∧ Event.mgrStart ∉ (main c w).trace
    ∧ (w.newDevelopment = none → (hasRequiredVariables w.env c.names).2 = true →
        (main c w).trace = c.names.map Event.lookupEnv ++
          [Event.lookupEnv WatchNamespaceEnv, Event.lookupEnv LabelSelectorEnv,
           Event.logInfo "Watching all namespaces",
           Event.logInfo ("Watching resources with label selector: " ++ s),
           Event.labelsParse s,
           Event.logFatal ("unable to parse label selector: " ++ err)]) := by
  have hr : resolveScope w "*" = Except.error
      [Event.lookupEnv LabelSelectorEnv, Event.logInfo "Watching all namespaces",
       Event.logInfo ("Watching resources with label selector: " ++ s),
       Event.labelsParse s, Event.logFatal ("unable to parse label selector: " ++ err)] := by
    simp [resolveScope, hsel, hp]
  rcases main_cases c w with ⟨e, h0, hm⟩ | ⟨h0, h1, hm⟩ | ⟨h0, h1, h2, hm⟩ |
    ⟨ns, t, h0, h1, h2, h3, hm⟩ | ⟨ns, t, opts, h0, h1, h2, h3, hm⟩
  · simp [hm, h0]
  · rw [hm]
    refine ⟨rfl, ?_, ?_, ?_, ?_, ?_⟩
    · intro h; rcases mem_hasRequiredVariables _ _ _ h with ⟨n, _, h⟩ | ⟨m, h⟩ <;> cases h
    · intro o h; rcases mem_hasRequiredVariables _ _ _ h with ⟨n, _, h⟩ | ⟨m, h⟩ <;> cases h
    · intro a o h; rcases mem_hasRequiredVariables _ _ _ h with ⟨n, _, h⟩ | ⟨m, h⟩ <;> cases h
    · intro h; rcases mem_hasRequiredVariables _ _ _ h with ⟨n, _, h⟩ | ⟨m, h⟩ <;> cases h
    · intro _ h; rw [h1] at h; cases h
  · rw [hns] at h2; cases h2
  · rw [hns] at h2
    cases h2
    rw [hr] at h3
    cases h3
    simp [hm]
  · rw [hns] at h2
    cases h2
    rw [hr] at h3
    cases h3

theorem malformed_selector_is_fatal_witness :
    (main demoImages demoWorld).exit = 1 ∧ Event.getConfig ∉ (main demoImages demoWorld).trace :=
  have h := malformed_selector_is_fatal demoImages demoWorld "app===" "bad"
    (by decide) (by decide) (by simp [demoWorld])
  ⟨h.1, h.2.1⟩

/-- C7: when one of the three image variables is not set (their names being
different from the two directive names), `main` ends with status 1 and its trace has no lookup of the namespace or selector directive, no
`labels.Parse`, `config.GetConfig`, `manager.New` or `mgr.Start` call; the run
is the same for every value of the two directives. -/
theorem missing_image_variable_exits_early (c : ImageEnvs) (w : World) (hc : c.Separate)
    (n : String) (hn : n ∈ c.names) (hmiss : w.env n = none) :
    (main c w).exit = 1
    ∧ WatchNamespaceEnv ∉ lookups (main c w).trace
    ∧ LabelSelectorEnv ∉ lookups (main c w).trace
    ∧ (∀ s, Event.labelsParse s ∉ (main c w).trace)
    ∧ Event.getConfig ∉ (main c w).trace
    ∧ (∀ opts, Event.managerNew opts ∉ (main c w).trace)
    ∧ Event.mgrStart ∉ (main c w).trace
    ∧ (∀ v₁ v₂ : Option String,
        main c ((w.setEnv WatchNamespaceEnv v₁).setEnv LabelSelectorEnv v₂) = main c w) := by
  have hf : (hasRequiredVariables w.env c.names).2 = false := by
    rw [allPresent_eq, List.all_eq_false]
    exact ⟨n, hn, by simp [hmiss]⟩
  have hl : lookups (hasRequiredVariables w.env c.names).1 = c.names := by
    simpa [hasRequiredVariables, lookups] using foldl_step_lookups w.env c.names ([], true)
  have hind : ∀ v₁ v₂ : Option String,
      main c ((w.setEnv WatchNamespaceEnv v₁).setEnv LabelSelectorEnv v₂) = main c w := by
    intro v₁ v₂
    have hchk : hasRequiredVariables
        ((w.setEnv WatchNamespaceEnv v₁).setEnv LabelSelectorEnv v₂).env c.names
          = hasRequiredVariables w.env c.names := by
      rw [check_setEnv _ _ _ _ hc.2, check_setEnv _ _ _ _ hc.1]
    have hnd : ((w.setEnv WatchNamespaceEnv v₁).setEnv LabelSelectorEnv v₂).newDevelopment
        = w.newDevelopment := rfl
    simp only [main, configureLogger, hchk, hnd, hf]
    cases w.newDevelopment <;> simp
  rcases main_cases c w with ⟨e, h0, hm⟩ | ⟨h0, h1, hm⟩ | ⟨h0, h1, h2, hm⟩ |
    ⟨ns, t, h0, h1, h2, h3, hm⟩ | ⟨ns, t, opts, h0, h1, h2, h3, hm⟩
  · refine ⟨?_, ?_, ?_, ?_, ?_, ?_, ?_, hind⟩ <;> simp [hm, lookups]
  · rw [hm]
    refine ⟨rfl, ?_, ?_, ?_, ?_, ?_, ?_, hm ▸ hind⟩
    · rw [hl]; exact hc.1
    · rw [hl]; exact hc.2
    · intro s h; rcases mem_hasRequiredVariables _ _ _ h with ⟨n, _, h⟩ | ⟨m, h⟩ <;> cases h
    · intro h; rcases mem_hasRequiredVariables _ _ _ h with ⟨n, _, h⟩ | ⟨m, h⟩ <;> cases h
    · intro o h; rcases mem_hasRequiredVariables _ _ _ h with ⟨n, _, h⟩ | ⟨m, h⟩ <;> cases h
    · intro h; rcases mem_hasRequiredVariables _ _ _ h with ⟨n, _, h⟩ | ⟨m, h⟩ <;> cases h
  · rw [hf] at h1; cases h1
  · rw [hf] at h1; cases h1
  · rw [hf] at h1; cases h1

theorem missing_image_variable_exits_early_witness :
    (main demoImages (demoWorld.setEnv "READINESS_PROBE_IMAGE" none)).exit = 1
    ∧ Event.getConfig ∉ (main demoImages (demoWorld.setEnv "READINESS_PROBE_IMAGE" none)).trace :=
  have h := missing_image_variable_exits_early demoImages
    (demoWorld.setEnv "READINESS_PROBE_IMAGE" none) (by decide) "READINESS_PROBE_IMAGE"
    (by decide) (by decide)
  ⟨h.1, h.2.2.2.2.1⟩

/-- C3: when the namespace directive is set to anything but `*` (and no image
variable is itself named `LABEL_SELECTOR`), two runs that differ only in the
selector directive (unset, well-formed or malformed) are the
same run: same trace, same exit status.  The selector directive is not looked
up, `labels.Parse` is not called, and every `manager.New` call has `Namespace`
equal to the directive and a nil `NewCache`; that call happens whenever the
logger, the image variables and `config.GetConfig` are in order. -/
theorem single_namespace_ignores_selector (c : ImageEnvs) (w : World) (ns : String)
    (v₁ v₂ : Option String) (hc : LabelSelectorEnv ∉ c.names)
    (hns : w.env WatchNamespaceEnv = some ns) (hnw : ns ≠ "*") :
    main c (w.setEnv LabelSelectorEnv v₁) = main c (w.setEnv LabelSelectorEnv v₂)
    ∧ LabelSelectorEnv ∉ lookups (main c (w.setEnv LabelSelectorEnv v₁)).trace
    ∧ (∀ s, Event.labelsParse s ∉ (main c (w.setEnv LabelSelectorEnv v₁)).trace)
    ∧ (∀ opts, Event.managerNew opts ∈ (main c (w.setEnv LabelSelectorEnv v₁)).trace →
        opts = { Namespace := ns, NewCache := none })
    ∧ (w.newDevelopment = none → (hasRequiredVariables w.env c.names).2 = true →
        ∀ cfg, w.getConfig = Except.ok cfg →
        Event.managerNew { Namespace := ns, NewCache := none }
          ∈ (main c (w.setEnv LabelSelectorEnv v₁)).trace) := by
  have hne : w.env WatchNamespaceEnv ≠ some "*" := by
    rw [hns]; intro h; cases h; exact hnw rfl
  have hr : resolveScope w ns = Except.ok
      ([Event.logInfo ("Watching namespace: " ++ ns)], { Namespace := ns, NewCache := none }) := by
    simp [resolveScope, hnw]
  rw [main_setEnv_selector c w v₁ hc hne, main_setEnv_selector c w v₂ hc hne]
  refine ⟨rfl, ?_, ?_, ?_, ?_⟩
  · rw [mem_lookups]
    intro h
    rcases mem_main c w _ h with ⟨m, h | h | h⟩ | ⟨n, hn, h⟩ | h | ⟨h, _⟩ | h | ⟨_, h⟩ | h | h | h
    · cases h
    · cases h
    · cases h
    · injection h with h
      exact hc (h ▸ hn)
    · simp [LabelSelectorEnv, WatchNamespaceEnv] at h
    · exact hne h
    all_goals cases h
  · intro s h
    rcases mem_main c w _ h with ⟨m, h | h | h⟩ | ⟨n, hn, h⟩ | h | ⟨h, _⟩ | h | ⟨_, h⟩ | h | h | h
    any_goals cases h
    exact hne h
  · intro opts h
    rw [managerNew_mem_main] at h
    obtain ⟨_, _, ns2, t, cfg, h2, h3, _⟩ := h
    rw [hns] at h2
    cases h2
    rw [hr] at h3
    cases h3
    rfl
  · intro h0 h1 cfg hcfg
    rw [managerNew_mem_main]
    exact ⟨h0, h1, ns, _, cfg, hns, hr, hcfg⟩

theorem single_namespace_ignores_selector_witness :
    main demoImages ((demoWorld.setEnv "WATCH_NAMESPACE" (some "team-a")).setEnv
        LabelSelectorEnv none)
      = main demoImages ((demoWorld.setEnv "WATCH_NAMESPACE" (some "team-a")).setEnv
        LabelSelectorEnv (some "app===")) :=
  (single_namespace_ignores_selector demoImages
    (demoWorld.setEnv "WATCH_NAMESPACE" (some "team-a")) "team-a" none (some "app===")
    (by decide) (by decide) (by decide)).1

/-- C5: every `manager.New` call of a run with the namespace directive `*` has
the empty-string namespace, and its `NewCache` is set exactly when the selector
directive is set (then it is the closure over the parsed selector); with the
selector directive unset `NewCache` is nil.  When the namespace directive is
not `*`, `NewCache` is nil.  In wildcard mode the call is reached whenever the
earlier stages are in order. -/
theorem cache_function_iff_selector_set (c : ImageEnvs) (w : World) :
    (∀ opts, Event.managerNew opts ∈ (main c w).trace →
      (w.env WatchNamespaceEnv = some "*" →
        opts.Namespace = ""
        ∧ (opts.NewCache.isSome = true ↔ (w.env LabelSelectorEnv).isSome = true)
        ∧ (w.env LabelSelectorEnv = none → opts.NewCache = none)
        ∧ (∀ s, w.env LabelSelectorEnv = some s →
            ∃ p, w.labelsParse s = Except.ok p ∧ opts.NewCache = some p))
      ∧ (w.env WatchNamespaceEnv ≠ some "*" → opts.NewCache = none))
    ∧ (w.newDevelopment = none → (hasRequiredVariables w.env c.names).2 = true →
        w.env WatchNamespaceEnv = some "*" →
        (∀ s, w.env LabelSelectorEnv = some s → ∃ p, w.labelsParse s = Except.ok p) →
        ∀ cfg, w.getConfig = Except.ok cfg →
        ∃ opts, Event.managerNew opts ∈ (main c w).trace) := by
  constructor
  · intro opts h
    rw [managerNew_mem_main] at h
    obtain ⟨_, _, ns, t, cfg, h2, h3, _⟩ := h
    rcases resolveScope_cases w ns with ⟨hs, hl, hr⟩ | ⟨hs, s, err, hl, hp, hr⟩ |
      ⟨hs, s, p, hl, hp, hr⟩ | ⟨hs, hr⟩
    · rw [hr] at h3
      cases h3
      simp [hl]
    · rw [hr] at h3
      cases h3
    · rw [hr] at h3
      cases h3
      subst hs
      simp [hl, hp, h2]
    · rw [hr] at h3
      cases h3
      simp [h2, hs]
  · intro h0 h1 h2 hp cfg hcfg
    rcases resolveScope_cases w "*" with ⟨_, hl, hr⟩ | ⟨_, s, err, hl, he, hr⟩ |
      ⟨_, s, p, hl, _, hr⟩ | ⟨hs, _⟩
    · exact ⟨_, (managerNew_mem_main c w _).2 ⟨h0, h1, _, _, cfg, h2, hr, hcfg⟩⟩
    · obtain ⟨p, hp⟩ := hp s hl
      rw [hp] at he
      cases he
    · exact ⟨_, (managerNew_mem_main c w _).2 ⟨h0, h1, _, _, cfg, h2, hr, hcfg⟩⟩
    · exact absurd rfl hs

theorem cache_function_iff_selector_set_witness :
    ∃ opts, Event.managerNew opts
      ∈ (main demoImages (demoWorld.setEnv "LABEL_SELECTOR" (some "app=mongodb"))).trace :=
  (cache_function_iff_selector_set demoImages
    (demoWorld.setEnv "LABEL_SELECTOR" (some "app=mongodb"))).2 rfl (by decide) (by decide)
    (by
      intro s hs
      have : s = "app=mongodb" := by
        simpa [World.setEnv, LabelSelectorEnv] using hs.symm
      subst this
      exact ⟨⟨"app=mongodb"⟩, by simp [World.setEnv, demoWorld]⟩)
    ⟨0⟩ rfl

/-- C10: with the namespace directive set to the empty string (and image
variable names different from the two directive names), `main` does
not stop at the namespace check; it takes the non-wildcard branch, whatever the
selector directive is: the selector directive is not looked up and not parsed,
and `manager.New` is called with `Namespace` empty and `NewCache` nil.  These
are the options, and this is the exit status, of the run in which the
namespace directive is `*` and the selector directive is unset. -/
theorem empty_namespace_is_all_namespaces (c : ImageEnvs) (w : World) (v : Option String)
    (hc : c.Separate) (hns : w.env WatchNamespaceEnv = some "") :
    main c (w.setEnv LabelSelectorEnv v) = main c w
    ∧ LabelSelectorEnv ∉ lookups (main c (w.setEnv LabelSelectorEnv v)).trace
    ∧ (∀ s, Event.labelsParse s ∉ (main c (w.setEnv LabelSelectorEnv v)).trace)
    ∧ Event.logFatal "No namespace specified to watch"
        ∉ (main c (w.setEnv LabelSelectorEnv v)).trace
    ∧ (∀ opts, Event.managerNew opts ∈ (main c (w.setEnv LabelSelectorEnv v)).trace →
        opts = { Namespace := "", NewCache := none })
    ∧ (∀ opts, Event.managerNew opts ∈ (main c (w.setEnv LabelSelectorEnv v)).trace ↔
        Event.managerNew opts
          ∈ (main c ((w.setEnv WatchNamespaceEnv (some "*")).setEnv LabelSelectorEnv none)).trace)
    ∧ (main c (w.setEnv LabelSelectorEnv v)).exit
        = (main c ((w.setEnv WatchNamespaceEnv (some "*")).setEnv LabelSelectorEnv none)).exit
    ∧ (w.newDevelopment = none → (hasRequiredVariables w.env c.names).2 = true →
        main c (w.setEnv LabelSelectorEnv v)
          = ⟨c.names.map Event.lookupEnv ++
              [Event.lookupEnv WatchNamespaceEnv, Event.logInfo "Watching namespace: "] ++
              (bootstrap w { Namespace := "", NewCache := none }).trace,
             (bootstrap w { Namespace := "", NewCache := none }).exit⟩) := by
  have hne : w.env WatchNamespaceEnv ≠ some "*" := by
    rw [hns]; decide
  have hr : resolveScope w "" = Except.ok
      ([Event.logInfo "Watching namespace: "], { Namespace := "", NewCache := none }) := by
    simp [resolveScope]
  have hchk : hasRequiredVariables
      ((w.setEnv WatchNamespaceEnv (some "*")).setEnv LabelSelectorEnv none).env c.names
        = hasRequiredVariables w.env c.names := by
    rw [check_setEnv _ _ _ _ hc.2, check_setEnv _ _ _ _ hc.1]
  have hns2 : ((w.setEnv WatchNamespaceEnv (some "*")).setEnv LabelSelectorEnv none).env
      WatchNamespaceEnv = some "*" := by
    simp [World.setEnv, WatchNamespaceEnv, LabelSelectorEnv]
  have hr2 : resolveScope ((w.setEnv WatchNamespaceEnv (some "*")).setEnv LabelSelectorEnv none)
      "*" = Except.ok
      ([Event.lookupEnv LabelSelectorEnv, Event.logInfo "Watching all namespaces"],
        { Namespace := "", NewCache := none }) := by
    simp [resolveScope, World.setEnv]
  rw [main_setEnv_selector c w v hc.2 hne]
  have hopts : ∀ opts, Event.managerNew opts ∈ (main c w).trace →
      opts = { Namespace := "", NewCache := none } := by
    intro opts h
    rw [managerNew_mem_main] at h
    obtain ⟨_, _, ns2, t, cfg, h2, h3, _⟩ := h
    rw [hns] at h2
    cases h2
    rw [hr] at h3
    cases h3
    rfl
  refine ⟨rfl, ?_, ?_, ?_, hopts, ?_, ?_, ?_⟩
  · rw [mem_lookups]
    intro h
    rcases mem_main c w _ h with ⟨m, h | h | h⟩ | ⟨n, hn, h⟩ | h | ⟨h, _⟩ | h | ⟨_, h⟩ | h | h | h
    · cases h
    · cases h
    · cases h
    · injection h with h
      exact hc.2 (h ▸ hn)
    · simp [LabelSelectorEnv, WatchNamespaceEnv] at h
    · exact hne h
    all_goals cases h
  · intro s h
    rcases mem_main c w _ h with ⟨m, h | h | h⟩ | ⟨n, hn, h⟩ | h | ⟨h, _⟩ | h | ⟨_, h⟩ | h | h | h
    any_goals cases h
    exact hne h
  · intro h
    rcases main_cases c w with ⟨err, h0, hm⟩ | ⟨h0, h1, hm⟩ | ⟨h0, h1, h2, hm⟩ |
      ⟨ns, t, h0, h1, h2, h3, hm⟩ | ⟨ns, t, opts, h0, h1, h2, h3, hm⟩
    · rw [hm] at h
      simp only [List.mem_singleton, Event.logFatal.injEq] at h
      have := congrArg (fun s => s.data.head?) h
      simp at this
    · rw [hm] at h
      rcases mem_hasRequiredVariables _ _ _ h with ⟨n, _, h⟩ | ⟨m, h⟩ <;> cases h
    · rw [hns] at h2; cases h2
    · rw [hns] at h2
      cases h2
      rw [hr] at h3
      cases h3
    · rw [hns] at h2
      cases h2
      rw [hr] at h3
      cases h3
      rw [hm] at h
      simp only [List.mem_append, List.mem_map, List.mem_cons, reduceCtorEq, and_false,
        exists_false, false_or, List.not_mem_nil] at h
      rcases mem_bootstrap w _ _ h with h | h | h | h | h | ⟨m, h⟩ | ⟨m, h⟩
      any_goals cases h
      rcases bootstrap_cases w { Namespace := "", NewCache := none } with
        ⟨_, _, hb⟩ | ⟨_, _, _, _, hb⟩ | ⟨_, _, _, _, _, _, hb⟩ |
        ⟨_, _, _, _, _, _, _, hb⟩ | ⟨_, _, _, _, _, _, _, _, hb⟩ | ⟨_, _, _, _, _, _, _, hb⟩ <;>
      · rw [hb] at h
        simp only [List.mem_cons, List.mem_singleton, reduceCtorEq, false_or, List.not_mem_nil,
          or_false, Event.logFatal.injEq] at h
        try
          have hd := congrArg (fun s => s.data.head?) h
          simp at hd
  · intro opts
    rw [managerNew_mem_main, managerNew_mem_main, hchk]
    constructor
    · rintro ⟨h0, h1, ns2, t, cfg, h2, h3, h4⟩
      rw [hns] at h2
      cases h2
      rw [hr] at h3
      cases h3
      exact ⟨h0, h1, "*", _, cfg, hns2, hr2, h4⟩
    · rintro ⟨h0, h1, ns2, t, cfg, h2, h3, h4⟩
      rw [hns2] at h2
      cases h2
      rw [hr2] at h3
      cases h3
      exact ⟨h0, h1, "", _, cfg, hns, hr, h4⟩
  · cases h0 : w.newDevelopment with
    | some err =>
      rw [main_logger_failed c w err h0,
        main_logger_failed c
          ((w.setEnv WatchNamespaceEnv (some "*")).setEnv LabelSelectorEnv none) err h0]
    | none =>
      cases h1 : (hasRequiredVariables w.env c.names).2 with
      | false =>
        rw [main_variable_missing c w h0 h1,
          main_variable_missing c
            ((w.setEnv WatchNamespaceEnv (some "*")).setEnv LabelSelectorEnv none) h0
            (hchk.symm ▸ h1)]
      | true =>
        rw [main_scope_resolved c w _ _ _ h0 h1 hns hr,
          main_scope_resolved c
            ((w.setEnv WatchNamespaceEnv (some "*")).setEnv LabelSelectorEnv none) _ _ _ h0
            (hchk.symm ▸ h1) hns2 hr2]
        rfl
  · intro h0 h1
    rw [main_scope_resolved c w _ _ _ h0 h1 hns hr]
    simp

theorem empty_namespace_is_all_namespaces_witness :
    Event.managerNew { Namespace := "", NewCache := none }
      ∈ (main demoImages ((demoWorld.setEnv "WATCH_NAMESPACE" (some "")).setEnv
          LabelSelectorEnv (some "app==="))).trace :=
  have h := empty_namespace_is_all_namespaces demoImages
    (demoWorld.setEnv "WATCH_NAMESPACE" (some "")) (some "app===") (by decide) (by decide)
  (h.2.2.2.2.2.2.2 rfl (by decide)) ▸ (by decide)

/-- C6, as stated, fails: with base options that carry a selector for `Pod`,
the options that the cache builder hands to `cache.New` carry no selector for
`Pod`. -/
theorem newCacheFunc_discards_base_selectors :
    demoBase.selectorFor "Pod" = some { Label := some ⟨"tier=db"⟩, Field := none }
    ∧ (∃ o, Event.cacheNew ⟨0⟩ o ∈ (newCacheFunc demoWorld ⟨"app=mongodb"⟩ ⟨0⟩ demoBase).1)
    ∧ ∀ o, Event.cacheNew ⟨0⟩ o ∈ (newCacheFunc demoWorld ⟨"app=mongodb"⟩ ⟨0⟩ demoBase).1 →
        o.selectorFor "Pod" = none ∧ o.selectorFor "Pod" ≠ demoBase.selectorFor "Pod" := by
  refine ⟨by decide, ⟨{ demoBase with SelectorsByObject :=
    [(MongoDBCommunity, { Label := some ⟨"app=mongodb"⟩, Field := none })] },
    by simp [newCacheFunc]⟩, ?_⟩
  intro o h
  simp only [newCacheFunc, List.mem_cons, reduceCtorEq, Event.cacheNew.injEq, true_and,
    List.mem_singleton, List.not_mem_nil, or_false, false_or] at h
  subst h
  decide

/-- C6, amended: the cache builder logs the selector, calls `cache.New` once,
with the configuration it was given, and returns its result unchanged.  The
options of that call are the base options with `SelectorsByObject` replaced by
the one-entry map for `MongoDBCommunity`: that type is filtered by the parsed
selector, no other type has a selector (entries of the base options are
discarded), and the other option fields are those of the base options. -/
theorem newCacheFunc_replaces_selectors (w : World) (parsedSelector : Selector)
    (cfg : RestConfig) (base : CacheOptions) :
    ∃ o : CacheOptions,
      newCacheFunc w parsedSelector cfg base
        = ([Event.logInfo ("Creating cache with label selector: " ++ parsedSelector.text),
            Event.cacheNew cfg o], w.cacheNew cfg o)
      ∧ o.SelectorsByObject
          = [(MongoDBCommunity, { Label := some parsedSelector, Field := none })]
      ∧ o.selectorFor MongoDBCommunity = some { Label := some parsedSelector, Field := none }
      ∧ (∀ kind, kind ≠ MongoDBCommunity → o.selectorFor kind = none)
      ∧ o.Scheme = base.Scheme ∧ o.Mapper = base.Mapper ∧ o.Resync = base.Resync
      ∧ o.Namespace = base.Namespace := by
  refine ⟨_, rfl, rfl, ?_, ?_, rfl, rfl, rfl, rfl⟩
  · simp [CacheOptions.selectorFor, List.lookup]
  · intro kind hk
    simp [CacheOptions.selectorFor, List.lookup, beq_eq_false_iff_ne.mpr hk]

theorem newCacheFunc_replaces_selectors_witness :
    ∃ o : CacheOptions,
      Event.cacheNew ⟨0⟩ o ∈ (newCacheFunc demoWorld ⟨"app=mongodb"⟩ ⟨0⟩ demoBase).1
      ∧ o.selectorFor "Pod" = none ∧ o.Namespace = demoBase.Namespace := by
  obtain ⟨o, h1, _, _, h4, _, _, _, h8⟩ :=
    newCacheFunc_replaces_selectors demoWorld ⟨"app=mongodb"⟩ ⟨0⟩ demoBase
  exact ⟨o, by rw [h1]; simp, h4 "Pod" (by decide), h8⟩

/-- C9: `main` ends with status 0 exactly when the logger was configured, the
three image variables are set, the namespace directive is set, the scope was
resolved (a selector directive, when read, parsed), `config.GetConfig`,
`manager.New`, `mdbv1.AddToScheme` and `SetupWithManager` succeeded and
`mgr.Start` returned nil; in every other run the status is 1. -/
theorem exit_zero_iff_all_stages_succeed (c : ImageEnvs) (w : World) :
    ((main c w).exit = 0 ↔
      w.newDevelopment = none ∧ (∀ n ∈ c.names, ∃ v, w.env n = some v) ∧
      ∃ ns opts cfg mgr, w.env WatchNamespaceEnv = some ns ∧ ScopeSpec w ns opts ∧
        w.getConfig = Except.ok cfg ∧ w.managerNew cfg opts = Except.ok mgr ∧
        w.addToScheme mgr = none ∧ w.setupWithManager mgr = none ∧ w.start mgr = none)
    ∧ ((main c w).exit = 0 ∨ (main c w).exit = 1) := by
  have hall : (hasRequiredVariables w.env c.names).2 = true ↔
      ∀ n ∈ c.names, ∃ v, w.env n = some v := by
    rw [allPresent_eq]
    simp [List.all_eq_true, Option.isSome_iff_exists]
  rcases main_cases c w with ⟨err, h0, hm⟩ | ⟨h0, h1, hm⟩ | ⟨h0, h1, h2, hm⟩ |
    ⟨ns, t, h0, h1, h2, h3, hm⟩ | ⟨ns, t, opts, h0, h1, h2, h3, hm⟩
  · simp [hm, h0]
  · rw [hm]
    refine ⟨⟨(fun h => by cases h), ?_⟩, Or.inr rfl⟩
    rintro ⟨_, h, _⟩
    rw [← hall, h1] at h
    cases h
  · simp [hm, h2]
  · rw [hm]
    refine ⟨⟨(fun h => by cases h), ?_⟩, Or.inr rfl⟩
    rintro ⟨_, _, ns2, opts, _, _, h4, h5, _⟩
    rw [h2] at h4
    cases h4
    obtain ⟨t2, h6⟩ := resolveScope_of_spec w ns opts h5
    rw [h3] at h6
    cases h6
  · rw [hm]
    refine ⟨⟨?_, ?_⟩, (bootstrap_exit w opts).2⟩
    · intro h
      obtain ⟨cfg, mgr, h4⟩ := (bootstrap_exit w opts).1.1 h
      exact ⟨h0, hall.1 h1, ns, opts, cfg, mgr, h2, spec_of_resolveScope w ns t opts h3, h4⟩
    · rintro ⟨_, _, ns2, opts2, cfg, mgr, h4, h5, h6⟩
      rw [h2] at h4
      cases h4
      obtain ⟨t2, h7⟩ := resolveScope_of_spec w ns opts2 h5
      rw [h3] at h7
      cases h7
      exact (bootstrap_exit w opts).1.2 ⟨cfg, mgr, h6⟩

theorem exit_zero_iff_all_stages_succeed_witness :
    (main demoImages (demoWorld.setEnv "LABEL_SELECTOR" none)).exit = 0
    ∧ (main demoImages demoWorld).exit = 1 :=
  ⟨by decide,
   ((exit_zero_iff_all_stages_succeed demoImages demoWorld).2).resolve_left (by decide)⟩

/-- C8: with image variable names different from the two directive names, the
stages of a run appear in the order of the source text (variable
check, namespace lookup, selector lookup and parse, `config.GetConfig`,
`manager.New`, `mdbv1.AddToScheme`, `SetupWithManager`, `mgr.Start`), each call
from `config.GetConfig` on happens at most once, and no stage runs unless all
earlier ones ran (the selector stage exists in wildcard mode only).  A stage
that fails is the last stage of the run: a logger error leaves no stage at
all, a missing image variable nothing after the variable check, an unset
namespace directive nothing after its lookup, a rejected selector nothing after
the parse, and an error from `config.GetConfig`, `manager.New`,
`mdbv1.AddToScheme` or `SetupWithManager` nothing after that call.  `mgr.Start`
is called at most once, and only when every earlier stage succeeded. -/
theorem stages_run_in_order (c : ImageEnvs) (w : World) (hc : c.Separate) :
    (stages (main c w).trace).Pairwise (fun a b => a ≤ b ∧ (3 ≤ a → a < b))
    ∧ (∀ r ∈ stages (main c w).trace, ∀ k, k < r → k ≠ 2 → k ∈ stages (main c w).trace)
    ∧ (main c w).trace.count Event.mgrStart ≤ 1
    ∧ (w.newDevelopment ≠ none → stages (main c w).trace = [])
    ∧ ((∃ n ∈ c.names, w.env n = none) → StagesUpTo 0 (main c w).trace)
    ∧ (w.env WatchNamespaceEnv = none → StagesUpTo 1 (main c w).trace)
    ∧ (∀ s err, w.env WatchNamespaceEnv = some "*" → w.env LabelSelectorEnv = some s →
        w.labelsParse s = Except.error err → StagesUpTo 2 (main c w).trace)
    ∧ (∀ err, w.getConfig = Except.error err → StagesUpTo 3 (main c w).trace)
    ∧ (∀ ns opts cfg err, w.env WatchNamespaceEnv = some ns → ScopeSpec w ns opts →
        w.getConfig = Except.ok cfg → w.managerNew cfg opts = Except.error err →
        StagesUpTo 4 (main c w).trace)
    ∧ (∀ ns opts cfg mgr err, w.env WatchNamespaceEnv = some ns → ScopeSpec w ns opts →
        w.getConfig = Except.ok cfg → w.managerNew cfg opts = Except.ok mgr →
        w.addToScheme mgr = some err → StagesUpTo 5 (main c w).trace)
    ∧ (∀ ns opts cfg mgr err, w.env WatchNamespaceEnv = some ns → ScopeSpec w ns opts →
        w.getConfig = Except.ok cfg → w.managerNew cfg opts = Except.ok mgr →
        w.setupWithManager mgr = some err → StagesUpTo 6 (main c w).trace)
    ∧ (Event.mgrStart ∈ (main c w).trace →
        w.newDevelopment = none ∧ (∀ n ∈ c.names, ∃ v, w.env n = some v) ∧
        ∃ ns opts cfg mgr, w.env WatchNamespaceEnv = some ns ∧ ScopeSpec w ns opts ∧
          w.getConfig = Except.ok cfg ∧ w.managerNew cfg opts = Except.ok mgr ∧
          w.addToScheme mgr = none ∧ w.setupWithManager mgr = none) := by
  have hall : (hasRequiredVariables w.env c.names).2 = true ↔
      ∀ n ∈ c.names, ∃ v, w.env n = some v := by
    rw [allPresent_eq]
    simp [List.all_eq_true, Option.isSome_iff_exists]
  have hmissing : (hasRequiredVariables w.env c.names).2 = true →
      ¬ ∃ n ∈ c.names, w.env n = none := by
    intro h1 ⟨n, hn, he⟩
    obtain ⟨v, hv⟩ := hall.1 h1 n hn
    rw [he] at hv
    cases hv
  rcases main_cases c w with ⟨err, h0, hm⟩ | ⟨h0, h1, hm⟩ | ⟨h0, h1, h2, hm⟩ |
    ⟨ns, t, h0, h1, h2, h3, hm⟩ | ⟨ns, t, opts, h0, h1, h2, h3, hm⟩
  · -- the logger could not be configured
    have hst : stages (main c w).trace = [] := by
      rw [hm]; simp [stages, Event.stage]
    have hms : Event.mgrStart ∉ (main c w).trace := by
      rw [hm]; simp
    have hup : ∀ k, StagesUpTo k (main c w).trace := by
      intro k r hr
      rw [hst] at hr
      cases hr
    refine ⟨?_, ?_, ?_, fun _ => hst, fun _ => hup 0, fun _ => hup 1,
      early_stop c w _ (hup 2) hms⟩
    · rw [hst]; exact List.Pairwise.nil
    · rw [hst]; intro r hr; cases hr
    · rw [List.count_eq_zero_of_not_mem hms]; omega
  · -- an image variable is missing
    have hzero : ∀ r ∈ stages (main c w).trace, r = 0 := by
      intro r hr
      rw [hm] at hr
      obtain ⟨e, he, hs⟩ := List.mem_filterMap.1 hr
      exact stage_of_check c hc w.env e he r hs
    have hms : Event.mgrStart ∉ (main c w).trace := by
      rw [hm]
      intro h
      rcases mem_hasRequiredVariables _ _ _ h with ⟨n, _, h⟩ | ⟨m, h⟩ <;> cases h
    have hup : ∀ k, StagesUpTo k (main c w).trace := by
      intro k r hr
      rw [hzero r hr]
      omega
    refine ⟨?_, ?_, ?_, fun h => absurd h0 h, fun _ => hup 0, fun _ => hup 1,
      early_stop c w _ (hup 2) hms⟩
    · apply List.pairwise_of_forall_mem_list
      intro a ha b hb
      rw [hzero a ha, hzero b hb]
      omega
    · intro r hr k hk
      rw [hzero r hr] at hk
      omega
    · rw [List.count_eq_zero_of_not_mem hms]; omega
  · -- the namespace directive is not set
    have hst : stages (main c w).trace = [0, 0, 0, 1] := by
      rw [hm, stages_append, stages_names c hc, stages_watch]
      simp [stages, Event.stage]
    have hms : Event.mgrStart ∉ (main c w).trace := by
      rw [hm]; simp
    have hup : ∀ k, 1 ≤ k → StagesUpTo k (main c w).trace := by
      intro k hk r hr
      rw [hst] at hr
      simp at hr
      omega
    refine ⟨?_, ?_, ?_, fun h => absurd h0 h, fun h => absurd h (hmissing h1),
      fun _ => hup 1 (by omega), early_stop c w _ (hup 2 (by omega)) hms⟩
    · rw [hst]; decide
    · rw [hst]; intro r hr k hk hk2; simp at hr ⊢; omega
    · rw [List.count_eq_zero_of_not_mem hms]; omega
  · -- the selector was rejected
    have hst : stages (main c w).trace = [0, 0, 0, 1, 2, 2] := by
      rw [hm, stages_append, stages_names c hc, stages_watch, (resolve_error_stages w ns t h3).1]
      rfl
    have hms : Event.mgrStart ∉ (main c w).trace := by
      rw [hm]
      have := (resolve_error_stages w ns t h3).2
      simp [this]
    have hup : ∀ k, 2 ≤ k → StagesUpTo k (main c w).trace := by
      intro k hk r hr
      rw [hst] at hr
      simp at hr
      omega
    refine ⟨?_, ?_, ?_, fun h => absurd h0 h, fun h => absurd h (hmissing h1),
      fun h => ?_, early_stop c w _ (hup 2 (by omega)) hms⟩
    · rw [hst]; decide
    · rw [hst]; intro r hr k hk hk2; simp at hr ⊢; omega
    · rw [List.count_eq_zero_of_not_mem hms]; omega
    · rw [h2] at h; cases h
  · -- the scope was resolved
    obtain ⟨hB1, hB2, hB3, hB4, hB5, hB6, hB7, hB8, hB9⟩ := bootstrap_stages w opts
    obtain ⟨hT1, hT2, hT3⟩ := resolve_ok_stages w ns t opts h3
    have hspec := spec_of_resolveScope w ns t opts h3
    have hst : stages (main c w).trace
        = ([0, 0, 0, 1] ++ stages t) ++ stages (bootstrap w opts).trace := by
      rw [hm, stages_append, stages_names c hc, stages_watch, stages_append]
      simp
    have hP : ∀ a ∈ [0, 0, 0, 1] ++ stages t, a ≤ 2 := by
      intro a ha
      rcases hT1 with h | h | h <;> rw [h] at ha <;> simp at ha <;> omega
    have hP01 : ∀ k, k < 2 → k ∈ [0, 0, 0, 1] ++ stages t := by
      intro k hk
      have : k = 0 ∨ k = 1 := by omega
      rcases this with rfl | rfl <;> simp
    have hPP : ([0, 0, 0, 1] ++ stages t).Pairwise (fun a b => a ≤ b ∧ (3 ≤ a → a < b)) := by
      rcases hT1 with h | h | h <;> rw [h] <;> decide
    have hcount : (main c w).trace.count Event.mgrStart
        = (bootstrap w opts).trace.count Event.mgrStart := by
      rw [hm]
      have hpre : Event.mgrStart
          ∉ c.names.map Event.lookupEnv ++ Event.lookupEnv WatchNamespaceEnv :: t := by
        simp [hT2]
      have : c.names.map Event.lookupEnv ++ Event.lookupEnv WatchNamespaceEnv ::
          (t ++ (bootstrap w opts).trace)
          = (c.names.map Event.lookupEnv ++ Event.lookupEnv WatchNamespaceEnv :: t)
            ++ (bootstrap w opts).trace := by simp
      rw [this, List.count_append, List.count_eq_zero_of_not_mem hpre]
      omega
    have hlift : ∀ k, 2 ≤ k → StagesUpTo k (bootstrap w opts).trace →
        StagesUpTo k (main c w).trace := by
      intro k hk hb r hr
      rw [hst, List.mem_append] at hr
      rcases hr with hr | hr
      · have := hP r hr; omega
      · exact hb r hr
    have hsame : ∀ ns2 opts2, w.env WatchNamespaceEnv = some ns2 → ScopeSpec w ns2 opts2 →
        opts2 = opts := by
      intro ns2 opts2 e1 e2
      rw [h2] at e1
      cases e1
      exact scopeSpec_unique w ns opts2 opts e2 hspec
    refine ⟨?_, ?_, ?_, fun h => absurd h0 h, fun h => absurd h (hmissing h1),
      fun h => ?_, ?_, ?_, ?_, ?_, ?_, ?_⟩
    · rw [hst, List.pairwise_append]
      refine ⟨hPP, hB1.imp (fun h => ⟨Nat.le_of_lt h, fun _ => h⟩), ?_⟩
      intro a ha b hb
      have := hP a ha
      have := hB2 b hb
      omega
    · intro r hr k hk hk2
      rw [hst, List.mem_append] at hr ⊢
      rcases hr with hr | hr
      · have := hP r hr
        exact Or.inl (hP01 k (by omega))
      · by_cases h3k : 3 ≤ k
        · exact Or.inr (hB3 r hr k h3k hk)
        · exact Or.inl (hP01 k (by omega))
    · rw [hcount]; exact hB4
    · rw [h2] at h; cases h
    · intro s err e1 e2 e3
      rw [h2] at e1
      cases e1
      exact (hT3 s err rfl e2 e3).elim
    · intro err e1
      exact hlift 3 (by omega) (hB5 err e1)
    · intro ns2 opts2 cfg err e1 e2 e3 e4
      rw [hsame ns2 opts2 e1 e2] at e4
      exact hlift 4 (by omega) (hB6 cfg err e3 e4)
    · intro ns2 opts2 cfg mgr err e1 e2 e3 e4 e5
      rw [hsame ns2 opts2 e1 e2] at e4
      exact hlift 5 (by omega) (hB7 cfg mgr err e3 e4 e5)
    · intro ns2 opts2 cfg mgr err e1 e2 e3 e4 e5
      rw [hsame ns2 opts2 e1 e2] at e4
      exact hlift 6 (by omega) (hB8 cfg mgr err e3 e4 e5)
    · intro h
      rw [hm] at h
      simp only [List.mem_append, List.mem_map, List.mem_cons, reduceCtorEq, and_false,
        exists_false, false_or] at h
      rcases h with h | h
      · exact absurd h hT2
      · obtain ⟨cfg, mgr, g1, g2, g3, g4⟩ := hB9 h
        exact ⟨h0, hall.1 h1, ns, opts, cfg, mgr, h2, hspec, g1, g2, g3, g4⟩

theorem stages_run_in_order_witness :
    stages (main demoImages (demoWorld.setEnv "LABEL_SELECTOR" (some "app=mongodb"))).trace
        = [0, 0, 0, 1, 2, 2, 3, 4, 5, 6, 7]
    ∧ (stages (main demoImages (demoWorld.setEnv "LABEL_SELECTOR" (some "app=mongodb"))).trace
        ).Pairwise (fun a b => a ≤ b ∧ (3 ≤ a → a < b))
    ∧ StagesUpTo 2 (main demoImages demoWorld).trace :=
  ⟨by decide,
   (stages_run_in_order demoImages
      (demoWorld.setEnv "LABEL_SELECTOR" (some "app=mongodb")) (by decide)).1,
   (stages_run_in_order demoImages demoWorld (by decide)).2.2.2.2.2.2.1 "app===" "bad"
      (by decide) (by decide) (by simp [demoWorld])⟩

end Manager
